import Mathlib

/-!
Verification of the session/handover coordination engine of a business
messaging gateway (Go). The chatbot handler package (bridge, auto-responder,
hub, admin authorization) is embedded faithfully from the source; the
SessionManager, whose implementation is not part of the sources at hand,
is modelled from the specification where needed.

Strings are embedded as `List Char` (the inputs of interest are ASCII, so
Go's byte-level operations and char-level operations coincide on them).
-/

namespace WaServer

/-- Character set treated as whitespace by the trimming helpers
(mirrors Go's strings.TrimSpace on ASCII input). -/
def goIsSpace (c : Char) : Bool :=
  c = ' ' || c = '\t' || c = '\n' || c = '\r' || c = '\x0b' || c = '\x0c'

/-- Drop leading whitespace (left part of Go strings.TrimSpace). -/
def trimLeftSpace (cs : List Char) : List Char := cs.dropWhile goIsSpace

/-- Drop trailing whitespace (right part of Go strings.TrimSpace). -/
def trimRightSpace (cs : List Char) : List Char :=
  (cs.reverse.dropWhile goIsSpace).reverse

/-- Embedding of Go strings.TrimSpace. -/
def goTrimSpace (cs : List Char) : List Char := trimRightSpace (trimLeftSpace cs)

/-- Embedding of Go strings.Split for a one-character separator. -/
def splitOnChar (sep : Char) : List Char → List (List Char)
  | [] => [[]]
  | c :: rest =>
    let r := splitOnChar sep rest
    if c = sep then
      [] :: r
    else
      match r with
      | [] => [[c]]
      | h :: t => (c :: h) :: t

/-- Embedding of Go strings.Contains for a one-character needle. -/
def hasChar (c : Char) (cs : List Char) : Bool := cs.any (fun x => x = c)

/-- Embedding of Go strings.ToLower (ASCII-relevant part). -/
def toLowerList (cs : List Char) : List Char := cs.map Char.toLower

/-- The cutset of strings.TrimRight(potentialID, ")*_ ") in extractSessionID. -/
def bridgeCutset : List Char := [')', '*', '_', ' ']

/-- Embedding of strings.TrimRight with the bridge cutset. -/
def trimRightCutset (cs : List Char) : List Char :=
  (cs.reverse.dropWhile (fun c => bridgeCutset.contains c)).reverse

/-- One iteration of extractSessionID's backwards line scan: trims the line,
requires a '#', takes the part after the last '#', trims it, strips the
trailing ")*_ " cutset and accepts it when its length is between 15 and 30. -/
def extractFromLine (rawLine : List Char) : Option (List Char) :=
  let line := goTrimSpace rawLine
  if hasChar '#' line then
    let parts := splitOnChar '#' line
    if 2 ≤ parts.length then
      let potentialID := trimRightCutset (goTrimSpace (parts.getLastD []))
      if 15 ≤ potentialID.length ∧ potentialID.length ≤ 30 then
        some potentialID
      else
        none
    else
      none
  else
    none

/-- The backwards scan of extractSessionID (the input list is the lines of
the quoted body already reversed, so the scan runs last line first). -/
def extractSessionIDAux : List (List Char) → List Char
  | [] => []
  | l :: rest =>
    match extractFromLine l with
    | some sid => sid
    | none => extractSessionIDAux rest

/-- Embedding of extractSessionID: splits the quoted body on newlines and
scans from the last line towards the first. -/
def extractSessionID (quotedBody : List Char) : List Char :=
  extractSessionIDAux (splitOnChar '\n' quotedBody).reverse

/-- Embedding of sanitizePhone: removes spaces, dashes and plus signs,
then rewrites a leading 0 into the country code 62. -/
def sanitizePhone (phone : List Char) : List Char :=
  let p := phone.filter (fun c => !(c = ' ' || c = '-' || c = '+'))
  match p with
  | '0' :: rest => '6' :: '2' :: rest
  | other => other

/-- Embedding of looksLikePhone: all digits, length between 10 and 15. -/
def looksLikePhone (s : List Char) : Bool :=
  decide (10 ≤ s.length) && decide (s.length ≤ 15) &&
    s.all (fun c => decide ('0' ≤ c) && decide (c ≤ '9'))

/-- A character is alphanumeric in the sense the specification uses for
session tokens (ASCII letters and digits). -/
def isAlphanumChar (c : Char) : Bool :=
  (decide ('0' ≤ c) && decide (c ≤ '9')) ||
  (decide ('a' ≤ c) && decide (c ≤ 'z')) ||
  (decide ('A' ≤ c) && decide (c ≤ 'Z'))

/-- Session lifecycle status: bot (initial), queued, live, closed. -/
inductive SessionStatus
  | bot
  | queued
  | live
  | closed
deriving DecidableEq, Repr

/-- A chat session record (the fields the verified operations read or write). -/
structure Session where
  id : List Char
  visitorId : List Char
  visitorName : List Char
  status : SessionStatus
  claimedBy : List Char
  claimedByName : List Char
  lastActivityAt : Nat
deriving DecidableEq, Repr

/-- A stored chat message (append-only log entry of one session). -/
structure ChatMessage where
  sessionID : List Char
  sender : List Char
  content : List Char
  timestamp : Nat
deriving DecidableEq, Repr

/-- Inbound messaging-network event as consumed by the chatbot handlers
(fields of whatsapp.NewMessageEvent used by them; fromJid embeds From). -/
structure NewMessageEvent where
  client : List Char
  fromJid : List Char
  body : List Char
  quotedMsgBody : List Char
  timestamp : Nat
  fromMe : Bool
  chatId : List Char
deriving DecidableEq, Repr

/-- The dynamically configured numbers fetched from the settings store. -/
structure WhatsAppSettings where
  agentPhone : List Char
  mainNumber : List Char
  secondaryNumber : List Char
deriving DecidableEq, Repr

/-- The static configuration numbers used as fallback. -/
structure Config where
  agentPhone : List Char
deriving DecidableEq, Repr

/-- The hardcoded KnownAdmins allow-list (keys of the Go map). -/
def KnownAdmins : List (List Char) :=
  [("6281399710085").toList, ("6289518530306").toList,
   ("6282258115474").toList, ("6282110100085").toList]

/-- The canonical phone computed by isAuthorizedAdmin before matching:
user part of the JID sanitized, with LID-looking identifiers resolved
through the identity resolver (resolve returns none on any failure,
covering an absent messaging manager as well). -/
def normalizedAdminPhone (resolve : List Char → Option (List Char))
    (jidStr : List Char) : List Char :=
  let parts := splitOnChar '@' jidStr
  let user := parts.headD []
  let server := if hasChar '@' jidStr then parts.getD 1 [] else []
  let phone := sanitizePhone user
  if server = ("lid").toList || !looksLikePhone user then
    match resolve jidStr with
    | some resolved => if resolved ≠ [] then sanitizePhone resolved else phone
    | none => phone
  else
    phone

/-- Embedding of isAuthorizedAdmin. The settings repository is modelled as
settingsRepo : Option (Option WhatsAppSettings): none embeds a nil repository,
some none a configured repository whose fetch failed or timed out, and
some (some s) a successful fetch of s. -/
def isAuthorizedAdmin (resolve : List Char → Option (List Char))
    (settingsRepo : Option (Option WhatsAppSettings)) (cfg : Config)
    (jidStr : List Char) : Bool :=
  let phone := normalizedAdminPhone resolve jidStr
  if phone = [] then
    false
  else if phone ∈ KnownAdmins then
    true
  else
    match settingsRepo with
    | some (some settings) =>
      sanitizePhone settings.agentPhone = phone ||
      sanitizePhone settings.mainNumber = phone ||
      sanitizePhone settings.secondaryNumber = phone
    | some none => false
    | none => sanitizePhone cfg.agentPhone = phone

/-- Modelled from the spec: the SessionManager's session store, absent from
the sources at hand, is embedded as a list of session records; createSession
appends a fresh session with status bot and no claimant. -/
def createSession (store : List Session) (sid visitorId visitorName : List Char)
    (now : Nat) : List Session :=
  store ++ [{ id := sid, visitorId := visitorId, visitorName := visitorName,
              status := SessionStatus.bot, claimedBy := [], claimedByName := [],
              lastActivityAt := now }]

/-- Update the session with the given id in place, leaving the others alone. -/
def updateSession (store : List Session) (sid : List Char)
    (f : Session → Session) : List Session :=
  store.map (fun s => if s.id = sid then f s else s)

/-- Modelled from the spec: GetSession — lookup by session id (closed
sessions are retained, never hard-deleted). -/
def getSession (store : List Session) (sid : List Char) : Option Session :=
  store.find? (fun s => decide (s.id = sid))

/-- Modelled from the spec: GetSessionByVisitorID returns the existing open
(non-closed) session of a visitor, if any. -/
def getSessionByVisitorID (store : List Session) (visitorId : List Char) :
    Option Session :=
  store.find? (fun s =>
    decide (s.visitorId = visitorId) && decide (s.status ≠ SessionStatus.closed))

/-- Modelled from the spec: RequestHandover transitions bot → queued. -/
def requestHandover (store : List Session) (sid : List Char) : List Session :=
  updateSession store sid (fun s =>
    if s.status = SessionStatus.bot then { s with status := SessionStatus.queued }
    else s)

/-- Modelled from the spec: ClaimSession transitions queued → live and
records the claimant; a later claim on a live session wins (last-claim-wins). -/
def claimSession (store : List Session) (sid adminId adminName : List Char) :
    List Session :=
  updateSession store sid (fun s =>
    if s.status = SessionStatus.queued ∨ s.status = SessionStatus.live then
      { s with status := SessionStatus.live, claimedBy := adminId,
               claimedByName := adminName }
    else s)

/-- Modelled from the spec: ReturnToBot sends any non-closed session back to
bot handling, clearing the claimant. -/
def returnToBot (store : List Session) (sid : List Char) : List Session :=
  updateSession store sid (fun s =>
    if s.status ≠ SessionStatus.closed then
      { s with status := SessionStatus.bot, claimedBy := [], claimedByName := [] }
    else s)

/-- Modelled from the spec: CloseSession moves any session to the terminal
closed state, clearing the claimant. -/
def closeSession (store : List Session) (sid : List Char) : List Session :=
  updateSession store sid (fun s =>
    { s with status := SessionStatus.closed, claimedBy := [], claimedByName := [] })

/-- Modelled from the spec: CleanupInactiveSessions closes every session
whose last activity is older than the threshold, regardless of status. -/
def cleanupInactiveSessions (store : List Session) (now maxIdle : Nat) :
    List Session :=
  store.map (fun s =>
    if now - s.lastActivityAt > maxIdle then
      { s with status := SessionStatus.closed, claimedBy := [], claimedByName := [] }
    else s)

/-- The claim/ownership invariant, as a decidable check over a store:
claimedBy is non-empty exactly on live sessions. -/
def claimInvariant (store : List Session) : Bool :=
  store.all (fun s => decide (s.claimedBy ≠ [] ↔ s.status = SessionStatus.live))

/-- Stores reachable from the empty store through the session operations.
The claim step requires a non-empty admin id, which the callers in the
sources guarantee (ClaimChat defaults an empty id to admin_default, and the
bridge auto-claim uses admin_wa). -/
inductive ReachableStore : List Session → Prop
  | empty : ReachableStore []
  | create {st} (sid visitorId visitorName : List Char) (now : Nat)
      (h : ReachableStore st) :
      ReachableStore (createSession st sid visitorId visitorName now)
  | handover {st} (sid : List Char) (h : ReachableStore st) :
      ReachableStore (requestHandover st sid)
  | claim {st} (sid adminId adminName : List Char) (h : ReachableStore st)
      (hA : adminId ≠ []) :
      ReachableStore (claimSession st sid adminId adminName)
  | toBot {st} (sid : List Char) (h : ReachableStore st) :
      ReachableStore (returnToBot st sid)
  | close {st} (sid : List Char) (h : ReachableStore st) :
      ReachableStore (closeSession st sid)
  | cleanup {st} (now maxIdle : Nat) (h : ReachableStore st) :
      ReachableStore (cleanupInactiveSessions st now maxIdle)

/-- Result of the StartChat handler: the session id answered to the visitor,
whether an existing session was resumed, and the store afterwards. -/
structure StartChatResult where
  sessionId : List Char
  resumed : Bool
  store : List Session
deriving DecidableEq, Repr

/-- Embedding of the StartChat handler's session logic: an existing open
session for the visitor is returned as-is (resumed), otherwise a new session
is created (newId stands for the id the store assigns). -/
def startChat (store : List Session) (visitorId visitorName : List Char)
    (newId : List Char) (now : Nat) : StartChatResult :=
  match getSessionByVisitorID store visitorId with
  | some existing => { sessionId := existing.id, resumed := true, store := store }
  | none =>
    { sessionId := newId, resumed := false,
      store := createSession store newId visitorId visitorName now }

/-- A connected realtime subscriber: its buffered outbound queue and the
queue's capacity (256 in the source's make(chan []byte, 256)). -/
structure HubClient where
  clientTag : Nat
  sendBuf : List (List Char × List Char)
  capacity : Nat
deriving DecidableEq, Repr

/-- The realtime hub's subscriber tables: one visitor client per session id
and the pool of admin clients. -/
structure ChatHub where
  visitors : List (List Char × HubClient)
  admins : List HubClient
deriving DecidableEq, Repr

/-- The non-blocking buffered send (select with default): the JSON envelope
(event, data) is appended when the buffer has free space and dropped for
this subscriber otherwise. -/
def trySend (env : List Char × List Char) (c : HubClient) : HubClient :=
  if c.sendBuf.length < c.capacity then { c with sendBuf := c.sendBuf ++ [env] }
  else c

/-- Embedding of BroadcastToAdmins: every connected admin client gets the
envelope offered to its own buffer. -/
def broadcastToAdmins (h : ChatHub) (event data : List Char) : ChatHub :=
  { h with admins := h.admins.map (trySend (event, data)) }

/-- Embedding of BroadcastToSession: only the visitor client registered
under the session id gets the envelope offered to its buffer. -/
def broadcastToSession (h : ChatHub) (sid : List Char) (event data : List Char) :
    ChatHub :=
  { h with visitors := h.visitors.map (fun p =>
      if p.1 = sid then (p.1, trySend (event, data) p.2) else p) }

/-- The AI engine's answer to a visitor message (ProcessMessage output). -/
structure AIResponse where
  reply : List Char
  suggestHandover : Bool
deriving DecidableEq, Repr

/-- Effects of one SendMessage handler invocation. -/
structure SendMessageResult where
  found : Bool
  saved : List ChatMessage
  adminBroadcasts : List (List Char × List Char)
  sessionBroadcasts : List (List Char × List Char)
  agentForwarded : Bool
  aiInvoked : Bool
deriving DecidableEq, Repr

/-- Embedding of the SendMessage handler: the visitor message is always
persisted once the session is found; it is broadcast to the admin pool only
in live or queued status; outside bot status it is bridged to the agent
(agentConfigured stands for a configured agent phone with a ready client);
in bot status the AI processes it and the reply goes to the session. -/
def sendMessage (store : List Session) (ai : List Char → AIResponse)
    (agentConfigured : Bool) (sid content : List Char) (now : Nat) :
    SendMessageResult :=
  match getSession store sid with
  | none =>
    { found := false, saved := [], adminBroadcasts := [], sessionBroadcasts := [],
      agentForwarded := false, aiInvoked := false }
  | some session =>
    let msg : ChatMessage :=
      { sessionID := sid, sender := ("visitor").toList, content := content,
        timestamp := now }
    let adminB :=
      if session.status = SessionStatus.live ∨ session.status = SessionStatus.queued
      then [(("chat-message").toList, content)]
      else []
    if session.status ≠ SessionStatus.bot then
      { found := true, saved := [msg], adminBroadcasts := adminB,
        sessionBroadcasts := [], agentForwarded := agentConfigured,
        aiInvoked := false }
    else
      { found := true, saved := [msg], adminBroadcasts := adminB,
        sessionBroadcasts := [(("chat-message").toList, (ai content).reply)],
        agentForwarded := false, aiInvoked := true }

/-- Greeting shorthand commands of the bridge. -/
def greetingCommands : List (List Char) :=
  [("/hi").toList, ("/halo").toList, ("/sambutan").toList]

/-- Thank-you shorthand commands of the bridge. -/
def thanksCommands : List (List Char) :=
  [("/thanks").toList, ("/trims").toList, ("/tq").toList]

/-- Close shorthand commands of the bridge. -/
def closeCommands : List (List Char) :=
  [("/end").toList, ("/close").toList, ("/selesai").toList]

/-- Return-to-bot shorthand commands of the bridge. -/
def botCommands : List (List Char) :=
  [("/ai").toList, ("/bot").toList, ("/kembali").toList]

/-- The canned greeting the /hi family rewrites the outgoing content to. -/
def cannedGreeting (name : List Char) : List Char :=
  ("Halo ").toList ++ name ++
    ("! 👋 Perkenalkan saya Admin dari Valpro. Ada yang bisa saya bantu terkait layanan kami?").toList

/-- The canned thank-you the /thanks family rewrites the outgoing content to. -/
def cannedThanks : List Char :=
  ("Terima kasih telah menghubungi Valpro. Jangan ragu untuk menghubungi kami kembali jika ada pertanyaan lain! 🙏").toList

/-- Effects of one HandleAgentReply invocation: the store afterwards, the
messages stored, and the events broadcast to the session's visitor and to
the admin pool (event names, paired with the session id for the visitor). -/
structure BridgeResult where
  store : List Session
  saved : List ChatMessage
  visitorEvents : List (List Char × List Char)
  adminEvents : List (List Char)
deriving DecidableEq, Repr

/-- The bridge result when HandleAgentReply returns without doing anything. -/
def bridgeNoOp (store : List Session) : BridgeResult :=
  { store := store, saved := [], visitorEvents := [], adminEvents := [] }

/-- Steps 3-7 of HandleAgentReply, reached once every guard has passed:
close and return-to-bot commands transition the session and broadcast
without storing; greeting and thank-you commands rewrite the body to canned
content and fall through to the store-and-broadcast path; anything else is
stored as an admin message, broadcast to both audiences, and auto-claims a
queued session under the admin_wa identity. -/
def bridgeProcess (store : List Session) (evt : NewMessageEvent)
    (sid : List Char) (session : Session) : BridgeResult :=
  let cmd := toLowerList (goTrimSpace evt.body)
  if cmd ∈ closeCommands then
    { store := closeSession store sid, saved := [],
      visitorEvents := [(sid, ("session-closed").toList)],
      adminEvents := [("queue-update").toList] }
  else if cmd ∈ botCommands then
    { store := returnToBot store sid, saved := [],
      visitorEvents := [(sid, ("status-change").toList)],
      adminEvents := [("queue-update").toList] }
  else
    let content :=
      if cmd ∈ greetingCommands then
        cannedGreeting
          (if session.visitorName = [] then ("Kak").toList
           else session.visitorName)
      else if cmd ∈ thanksCommands then cannedThanks
      else evt.body
    let msg : ChatMessage :=
      { sessionID := sid, sender := ("admin").toList, content := content,
        timestamp := evt.timestamp }
    if session.status = SessionStatus.queued then
      { store := claimSession store sid ("admin_wa").toList
                   ("WhatsApp Admin").toList,
        saved := [msg],
        visitorEvents := [(sid, ("chat-message").toList),
                          (sid, ("admin-joined").toList)],
        adminEvents := [("chat-message").toList, ("queue-update").toList] }
    else
      { store := store, saved := [msg],
        visitorEvents := [(sid, ("chat-message").toList)],
        adminEvents := [("chat-message").toList] }

/-- Embedding of HandleAgentReply: self-sent events, events without a quoted
body, quoted bodies without a session token and tokens of unknown sessions
are ignored; everything else is handled by bridgeProcess. -/
def handleAgentReply (store : List Session) (evt : NewMessageEvent) :
    BridgeResult :=
  if evt.fromMe then bridgeNoOp store
  else if evt.quotedMsgBody = [] then bridgeNoOp store
  else
    let sid := extractSessionID evt.quotedMsgBody
    if sid = [] then bridgeNoOp store
    else
      match getSession store sid with
      | none => bridgeNoOp store
      | some session => bridgeProcess store evt sid session

/-- The auto-responder cooldown window, in seconds (30 minutes). -/
def autoReplyCooldown : Nat := 30 * 60

/-- Lookup in the per-sender cooldown cache (autoReplyCache). -/
def cacheLookup (cache : List (List Char × Nat)) (k : List Char) : Option Nat :=
  (cache.find? (fun p => decide (p.1 = k))).map Prod.snd

/-- Store into the per-sender cooldown cache (autoReplyCache.Store),
last write wins. -/
def cacheStore (cache : List (List Char × Nat)) (k : List Char) (v : Nat) :
    List (List Char × Nat) :=
  (k, v) :: cache.filter (fun p => !(decide (p.1 = k)))

/-- Steps 1-3 of HandleBotAutoResponder: not self-sent, sender not an
authorized admin, and not a quoted reply carrying a session token. -/
def autoResponderEligible (isAdmin : List Char → Bool) (evt : NewMessageEvent) :
    Bool :=
  if evt.fromMe then false
  else if isAdmin evt.fromJid then false
  else if evt.quotedMsgBody ≠ [] ∧ extractSessionID evt.quotedMsgBody ≠ [] then
    false
  else true

/-- Step 4's read side of HandleBotAutoResponder: the cooldown check against
the cached last-sent time (time.Since(last) < 30 minutes blocks; Nat
subtraction mirrors Go's negative-duration case by truncating to zero). -/
def cooldownPassed (cache : List (List Char × Nat)) (sender : List Char)
    (now : Nat) : Bool :=
  match cacheLookup cache sender with
  | some last => !(decide (now - last < autoReplyCooldown))
  | none => true

/-- Embedding of HandleBotAutoResponder as one atomic invocation: returns
the cooldown cache afterwards and whether the acknowledgment was sent
(clientAvailable stands for a present manager with a usable client; the
cache is updated before the send is attempted, as in the source). -/
def handleBotAutoResponder (isAdmin : List Char → Bool) (clientAvailable : Bool)
    (cache : List (List Char × Nat)) (evt : NewMessageEvent) (now : Nat) :
    List (List Char × Nat) × Bool :=
  if !autoResponderEligible isAdmin evt then (cache, false)
  else if !cooldownPassed cache evt.fromJid now then (cache, false)
  else (cacheStore cache evt.fromJid now, clientAvailable)

/-- Sequential processing of a chronological stream of inbound events by the
auto-responder; returns the final cache and the list of acknowledgments sent
as (sender, send time) pairs. -/
def runAutoResponder (isAdmin : List Char → Bool) (clientAvailable : Bool) :
    List (NewMessageEvent × Nat) → List (List Char × Nat) →
    List (List Char × Nat) × List (List Char × Nat)
  | [], cache => (cache, [])
  | (evt, t) :: rest, cache =>
    let step := handleBotAutoResponder isAdmin clientAvailable cache evt t
    let tail := runAutoResponder isAdmin clientAvailable rest step.1
    (tail.1, (if step.2 then [(evt.fromJid, t)] else []) ++ tail.2)

/-- Two concurrent HandleBotAutoResponder invocations for the same event,
interleaved so that both execute the cooldown read (sync.Map Load) against
the initial cache before either executes the write (sync.Map Store) — the
check and the store are not one atomic step in the source. Returns the
acknowledgments sent. -/
def racedAutoResponder (isAdmin : List Char → Bool) (evt : NewMessageEvent)
    (now : Nat) : List (List Char × Nat) :=
  let cache0 : List (List Char × Nat) := []
  let aPasses := autoResponderEligible isAdmin evt && cooldownPassed cache0 evt.fromJid now
  let bPasses := autoResponderEligible isAdmin evt && cooldownPassed cache0 evt.fromJid now
  (if aPasses then [(evt.fromJid, now)] else []) ++
    (if bPasses then [(evt.fromJid, now)] else [])

/-! Helper lemmas. -/

theorem hasChar_eq_true {c : Char} {cs : List Char} :
    hasChar c cs = true ↔ c ∈ cs := by
  simp only [hasChar, List.any_eq_true, decide_eq_true_eq]
  constructor
  · rintro ⟨x, hx, rfl⟩; exact hx
  · intro h; exact ⟨c, h, rfl⟩

theorem mem_of_mem_splitOnChar {sep : Char} {cs l : List Char} {c : Char}
    (hl : l ∈ splitOnChar sep cs) (hc : c ∈ l) : c ∈ cs := by
  induction cs generalizing l with
  | nil =>
    simp only [splitOnChar, List.mem_singleton] at hl
    subst hl
    simp at hc
  | cons x rest ih =>
    simp only [splitOnChar] at hl
    by_cases hx : x = sep
    · rw [if_pos hx] at hl
      rcases List.mem_cons.mp hl with h | h
      · subst h; simp at hc
      · exact List.mem_cons_of_mem _ (ih h hc)
    · rw [if_neg hx] at hl
      cases hr : splitOnChar sep rest with
      | nil =>
        rw [hr] at hl
        simp only [List.mem_singleton] at hl
        subst hl
        rcases List.mem_singleton.mp hc with rfl
        exact List.mem_cons_self _ _
      | cons hd tl =>
        rw [hr] at hl
        rcases List.mem_cons.mp hl with h | h
        · subst h
          rcases List.mem_cons.mp hc with rfl | h
          · exact List.mem_cons_self _ _
          · exact List.mem_cons_of_mem _ (ih (hr ▸ List.mem_cons_self hd tl) h)
        · exact List.mem_cons_of_mem _ (ih (hr ▸ List.mem_cons_of_mem hd h) hc)

theorem mem_of_mem_trimLeftSpace {c : Char} {cs : List Char}
    (h : c ∈ trimLeftSpace cs) : c ∈ cs :=
  (List.dropWhile_sublist goIsSpace).mem h

theorem mem_of_mem_trimRightSpace {c : Char} {cs : List Char}
    (h : c ∈ trimRightSpace cs) : c ∈ cs := by
  unfold trimRightSpace at h
  have h1 : c ∈ cs.reverse.dropWhile goIsSpace := List.mem_reverse.mp h
  exact List.mem_reverse.mp ((List.dropWhile_sublist goIsSpace).mem h1)

theorem mem_of_mem_goTrimSpace {c : Char} {cs : List Char}
    (h : c ∈ goTrimSpace cs) : c ∈ cs :=
  mem_of_mem_trimLeftSpace (mem_of_mem_trimRightSpace h)

theorem extractSessionIDAux_eq_nil {lines : List (List Char)}
    (h : ∀ l ∈ lines, extractFromLine l = none) :
    extractSessionIDAux lines = [] := by
  induction lines with
  | nil => rfl
  | cons l rest ih =>
    have hl := h l (List.mem_cons_self _ _)
    simp only [extractSessionIDAux, hl]
    exact ih (fun x hx => h x (List.mem_cons_of_mem _ hx))

theorem extractFromLine_eq_none_of_no_hash {l : List Char}
    (h : ('#' : Char) ∉ l) : extractFromLine l = none := by
  have hh : hasChar '#' (goTrimSpace l) = false := by
    cases hc : hasChar '#' (goTrimSpace l) with
    | false => rfl
    | true => exact absurd (mem_of_mem_goTrimSpace (hasChar_eq_true.mp hc)) h
  simp [extractFromLine, hh]

/-- Claim C3 — the claim as frozen asserts the extracted token is
alphanumeric, but extractSessionID checks only the trimmed length (15-30):
for the body x#aaaa bbbb cccc dd it returns the 17-character token
aaaa bbbb cccc dd, which is not alphanumeric. -/
theorem C3_counterexample :
    extractSessionID (("x#aaaa bbbb cccc dd").toList) =
      ("aaaa bbbb cccc dd").toList ∧
    (("aaaa bbbb cccc dd").toList.all isAlphanumChar) = false := by
  decide

/-- Claim C3 (amended): extractSessionID scans lines from the last toward
the first and returns the token of trimmed length 15-30 (its characters are
not constrained to be alphanumeric) following the last '#' of the matching
line; a body containing ...#abcd1234efgh5678ijkl yields exactly that token,
a body with two token lines yields the later one, a line with several '#'
yields the part after the last one, and a body with no '#' yields empty. -/
theorem C3_extractSessionID_amended :
    (∀ body : List Char, ('#' : Char) ∉ body → extractSessionID body = []) ∧
    extractSessionID (("Permintaan\nID: #abcd1234efgh5678ijkl").toList) =
      ("abcd1234efgh5678ijkl").toList ∧
    extractSessionID (("A #aaaa0000bbbb1111\nB #cccc2222dddd3333").toList) =
      ("cccc2222dddd3333").toList ∧
    extractSessionID (("x#y#abcd1234efgh5678ijkl").toList) =
      ("abcd1234efgh5678ijkl").toList := by
  refine ⟨?_, by decide, by decide, by decide⟩
  intro body hb
  apply extractSessionIDAux_eq_nil
  intro l hl
  apply extractFromLine_eq_none_of_no_hash
  intro hc
  exact hb (mem_of_mem_splitOnChar (List.mem_reverse.mp hl) hc)

/-- Claim C3 witness: the amended theorem applied to a concrete hash-free
body, together with its concrete conjuncts. -/
theorem C3_extractSessionID_amended_witness :
    extractSessionID (("halo tanpa tanda pagar").toList) = [] ∧
    extractSessionID (("Permintaan\nID: #abcd1234efgh5678ijkl").toList) =
      ("abcd1234efgh5678ijkl").toList :=
  ⟨C3_extractSessionID_amended.1 (("halo tanpa tanda pagar").toList) (by decide),
   C3_extractSessionID_amended.2.1⟩

/-- Claim C5 — the claim as frozen says isAuthorizedAdmin falls back to the
static configuration whenever the dynamic store is unavailable or slow; in
the code the static fallback runs only when no settings repository is
configured at all. Counterexample: the same number matching the static
configuration is authorized with a nil repository (second conjunct) but
rejected when a configured repository's fetch fails or times out (first
conjunct). -/
theorem C5_counterexample :
    isAuthorizedAdmin (fun _ => none) (some none)
      { agentPhone := ("6281234567890").toList }
      (("6281234567890@s.whatsapp.net").toList) = false ∧
    isAuthorizedAdmin (fun _ => none) none
      { agentPhone := ("6281234567890").toList }
      (("6281234567890@s.whatsapp.net").toList) = true := by
  decide

/-- Claim C5 (amended): isAuthorizedAdmin authorizes exactly the identifiers
whose normalized phone (user part sanitized, LID-like identifiers resolved
through the identity resolver) is non-empty and either belongs to the
hardcoded allow-list, or matches one of the dynamically fetched agent, main
or secondary numbers when the fetch succeeds, or matches the static
configuration's agent phone when no settings repository is configured; a
failed or timed-out fetch on a configured repository authorizes nothing
beyond the hardcoded list. -/
theorem C5_isAuthorizedAdmin_amended (resolve : List Char → Option (List Char))
    (settingsRepo : Option (Option WhatsAppSettings)) (cfg : Config)
    (jidStr : List Char) :
    isAuthorizedAdmin resolve settingsRepo cfg jidStr = true ↔
      (normalizedAdminPhone resolve jidStr ≠ [] ∧
        (normalizedAdminPhone resolve jidStr ∈ KnownAdmins ∨
         (∃ s, settingsRepo = some (some s) ∧
           (sanitizePhone s.agentPhone = normalizedAdminPhone resolve jidStr ∨
            sanitizePhone s.mainNumber = normalizedAdminPhone resolve jidStr ∨
            sanitizePhone s.secondaryNumber = normalizedAdminPhone resolve jidStr)) ∨
         (settingsRepo = none ∧
           sanitizePhone cfg.agentPhone = normalizedAdminPhone resolve jidStr))) := by
  unfold isAuthorizedAdmin
  by_cases h0 : normalizedAdminPhone resolve jidStr = []
  · simp [h0]
  · by_cases h1 : normalizedAdminPhone resolve jidStr ∈ KnownAdmins
    · simp [h0, h1]
    · cases settingsRepo with
      | none => simp [h0, h1]
      | some inner =>
        cases inner with
        | none => simp [h0, h1]
        | some s => simp [h0, h1, or_assoc]

/-- Claim C6: a self-sent event, an event without a quoted body, a quoted
body without an extractable session token, and a token naming no existing
session each make HandleAgentReply a no-op: no message stored, no session
transition, nothing broadcast to the visitor or the admin pool. -/
theorem C6_bridge_noop (store : List Session) (evt : NewMessageEvent)
    (h : evt.fromMe = true ∨ evt.quotedMsgBody = [] ∨
         extractSessionID evt.quotedMsgBody = [] ∨
         getSession store (extractSessionID evt.quotedMsgBody) = none) :
    handleAgentReply store evt = bridgeNoOp store := by
  by_cases h1 : evt.fromMe
  · simp [handleAgentReply, h1]
  · by_cases h2 : evt.quotedMsgBody = []
    · simp [handleAgentReply, h1, h2]
    · by_cases h3 : extractSessionID evt.quotedMsgBody = []
      · simp [handleAgentReply, h1, h2, h3]
      · have h4 : getSession store (extractSessionID evt.quotedMsgBody) = none := by
          rcases h with h | h | h | h
          · exact absurd h (by simpa using h1)
          · exact absurd h h2
          · exact absurd h h3
          · exact h
        simp [handleAgentReply, h1, h2, h3, h4]

/-- Claim C6 witness: the theorem applied to a concrete self-sent event. -/
theorem C6_bridge_noop_witness :
    handleAgentReply []
      { client := ("bot").toList, fromJid := ("628111@s.whatsapp.net").toList,
        body := ("halo").toList, quotedMsgBody := ("x").toList,
        timestamp := 0, fromMe := true, chatId := ("y").toList } = bridgeNoOp [] :=
  C6_bridge_noop [] _ (Or.inl rfl)

/-- Claim C7: HandleBotAutoResponder sends the acknowledgment exactly when
the event is not self-sent, the sender is not an authorized admin, the
quoted body (if present) carries no extractable session token, the
per-sender cooldown has passed and a usable client exists; in particular an
event failing any of the claim's three conditions sends nothing. -/
theorem C7_autoResponder_guard (isAdmin : List Char → Bool)
    (clientAvailable : Bool) (cache : List (List Char × Nat))
    (evt : NewMessageEvent) (now : Nat) :
    (handleBotAutoResponder isAdmin clientAvailable cache evt now).2 = true ↔
      (evt.fromMe = false ∧ isAdmin evt.fromJid = false ∧
       (evt.quotedMsgBody = [] ∨ extractSessionID evt.quotedMsgBody = []) ∧
       cooldownPassed cache evt.fromJid now = true ∧ clientAvailable = true) := by
  unfold handleBotAutoResponder autoResponderEligible
  by_cases h1 : evt.fromMe
  · simp [h1]
  · by_cases h2 : isAdmin evt.fromJid
    · simp [h1, h2]
    · by_cases h3 : evt.quotedMsgBody ≠ [] ∧ extractSessionID evt.quotedMsgBody ≠ []
      · simp [h1, h2, h3, h3.1, h3.2]
      · have h3d : evt.quotedMsgBody = [] ∨ extractSessionID evt.quotedMsgBody = [] := by
          by_cases hq : evt.quotedMsgBody = []
          · exact Or.inl hq
          · refine Or.inr ?_
            by_cases he : extractSessionID evt.quotedMsgBody = []
            · exact he
            · exact absurd ⟨hq, he⟩ h3
        by_cases h4 : cooldownPassed cache evt.fromJid now
        · simp [h1, h2, h3, h4, h3d]
        · simp [h1, h2, h3, h4]

theorem find?_append_right {α : Type} {p : α → Bool} {l : List α}
    (h : l.find? p = none) (x : α) (hx : p x = true) :
    (l ++ [x]).find? p = some x := by
  induction l with
  | nil => simp [List.find?, hx]
  | cons a l ih =>
    by_cases ha : p a
    · rw [List.find?_cons_of_pos _ ha] at h
      exact absurd h (by simp)
    · rw [List.find?_cons_of_neg _ ha] at h
      simp only [List.cons_append, List.find?_cons_of_neg _ ha]
      exact ih h

/-- Claim C8: starting a chat twice for the same visitor returns the same
session id both times — the second call finds the session the first call
created (or resumed) still open and resumes it instead of creating a new
one. -/
theorem C8_startChat_idempotent (store : List Session)
    (vid vn1 vn2 id1 id2 : List Char) (t1 t2 : Nat) :
    (startChat (startChat store vid vn1 id1 t1).store vid vn2 id2 t2).sessionId =
      (startChat store vid vn1 id1 t1).sessionId := by
  unfold startChat
  cases h : getSessionByVisitorID store vid with
  | some s => simp [h]
  | none =>
    simp only [h]
    have hnew : (getSessionByVisitorID (createSession store id1 vid vn1 t1) vid) =
        some { id := id1, visitorId := vid, visitorName := vn1,
               status := SessionStatus.bot, claimedBy := [], claimedByName := [],
               lastActivityAt := t1 } := by
      unfold getSessionByVisitorID createSession
      unfold getSessionByVisitorID at h
      exact find?_append_right h _ (by simp)
    simp [hnew]

/-- Claim C9: a broadcast to the admin pool delivers the (event, data)
envelope to every admin subscriber whose buffer has free space and drops it
for exactly the full ones, each subscriber independently of the others; a
broadcast to a session delivers only to the visitor client registered under
that session id, with the same per-buffer behavior, and leaves every other
visitor client untouched. -/
theorem C9_broadcast_best_effort (h : ChatHub) (event data sid : List Char)
    (i j : Nat) (c : HubClient) (k : List Char) (vc : HubClient)
    (hc : h.admins[i]? = some c) (hv : h.visitors[j]? = some (k, vc)) :
    (broadcastToAdmins h event data).admins[i]? =
      some (if c.sendBuf.length < c.capacity then
              { c with sendBuf := c.sendBuf ++ [(event, data)] }
            else c) ∧
    (broadcastToAdmins h event data).admins.length = h.admins.length ∧
    (broadcastToSession h sid event data).visitors[j]? =
      some (if k = sid then
              (k, if vc.sendBuf.length < vc.capacity then
                    { vc with sendBuf := vc.sendBuf ++ [(event, data)] }
                  else vc)
            else (k, vc)) ∧
    (broadcastToSession h sid event data).visitors.length = h.visitors.length := by
  refine ⟨?_, by simp [broadcastToAdmins], ?_, by simp [broadcastToSession]⟩
  · simp only [broadcastToAdmins, List.getElem?_map, hc, Option.map_some]
    by_cases hcap : c.sendBuf.length < c.capacity <;> simp [trySend, hcap]
  · simp only [broadcastToSession, List.getElem?_map, hv, Option.map_some]
    by_cases hk : k = sid
    · by_cases hcap : vc.sendBuf.length < vc.capacity <;>
        simp [trySend, hk, hcap]
    · simp [trySend, hk]

/-- Claim C9 witness: the theorem applied to a concrete hub holding one
admin with room, one full admin, and one visitor client. -/
theorem C9_broadcast_best_effort_witness :
    (broadcastToAdmins
        { visitors := [(("s1").toList, { clientTag := 3, sendBuf := [], capacity := 2 })],
          admins := [{ clientTag := 1, sendBuf := [], capacity := 2 },
                     { clientTag := 2,
                       sendBuf := [(("typing").toList, ("x").toList)], capacity := 1 }] }
        (("chat-message").toList) (("hi").toList)).admins[1]? =
      some (if ([(("typing").toList, ("x").toList)] : List (List Char × List Char)).length < 1 then
              { clientTag := 2,
                sendBuf := [(("typing").toList, ("x").toList)] ++
                  [(("chat-message").toList, ("hi").toList)], capacity := 1 }
            else { clientTag := 2,
                   sendBuf := [(("typing").toList, ("x").toList)], capacity := 1 }) :=
  (C9_broadcast_best_effort
    { visitors := [(("s1").toList, { clientTag := 3, sendBuf := [], capacity := 2 })],
      admins := [{ clientTag := 1, sendBuf := [], capacity := 2 },
                 { clientTag := 2,
                   sendBuf := [(("typing").toList, ("x").toList)], capacity := 1 }] }
    (("chat-message").toList) (("hi").toList) (("s1").toList) 1 0
    { clientTag := 2, sendBuf := [(("typing").toList, ("x").toList)], capacity := 1 }
    (("s1").toList) { clientTag := 3, sendBuf := [], capacity := 2 }
    (by decide) (by decide)).1

/-- Claim C10: once the session is found, the visitor message is persisted
whatever the status; it reaches the admin pool exactly in live or queued
status; and in bot status nothing goes to the admin pool, the AI processes
the message, and the AI reply is broadcast to the session. -/
theorem C10_sendMessage_routing (store : List Session)
    (ai : List Char → AIResponse) (agentConfigured : Bool)
    (sid content : List Char) (now : Nat) (session : Session)
    (hs : getSession store sid = some session) :
    (sendMessage store ai agentConfigured sid content now).saved =
      [{ sessionID := sid, sender := ("visitor").toList, content := content,
         timestamp := now }] ∧
    ((sendMessage store ai agentConfigured sid content now).adminBroadcasts ≠ [] ↔
      (session.status = SessionStatus.live ∨ session.status = SessionStatus.queued)) ∧
    (session.status = SessionStatus.bot →
      (sendMessage store ai agentConfigured sid content now).adminBroadcasts = [] ∧
      (sendMessage store ai agentConfigured sid content now).aiInvoked = true ∧
      (sendMessage store ai agentConfigured sid content now).sessionBroadcasts =
        [(("chat-message").toList, (ai content).reply)]) := by
  unfold sendMessage
  rw [hs]
  cases hst : session.status <;> simp [hst]

/-- A concrete session in bot status, for witnesses. -/
def sampleBotSession : Session :=
  { id := ("s1s1s1s1s1s1s1s1s1s1").toList, visitorId := ("v1").toList,
    visitorName := ("Budi").toList, status := SessionStatus.bot,
    claimedBy := [], claimedByName := [], lastActivityAt := 0 }

/-- Claim C10 witness: the theorem applied to a one-session store in bot
status. -/
theorem C10_sendMessage_routing_witness :
    (sendMessage [sampleBotSession]
        (fun _ => { reply := ("ok").toList, suggestHandover := false }) true
        (("s1s1s1s1s1s1s1s1s1s1").toList) (("halo").toList) 7).saved =
      [{ sessionID := ("s1s1s1s1s1s1s1s1s1s1").toList,
         sender := ("visitor").toList, content := ("halo").toList,
         timestamp := 7 }] :=
  (C10_sendMessage_routing [sampleBotSession]
    (fun _ => { reply := ("ok").toList, suggestHandover := false }) true
    (("s1s1s1s1s1s1s1s1s1s1").toList) (("halo").toList) 7 sampleBotSession
    (by decide)).1

theorem bot_not_close {cmd : List Char} (h : cmd ∈ botCommands) :
    cmd ∉ closeCommands := by
  simp only [botCommands, List.mem_cons, List.mem_singleton,
    List.not_mem_nil, or_false] at h
  rcases h with rfl | rfl | rfl <;> decide

theorem thanks_not_greeting {cmd : List Char} (h : cmd ∈ thanksCommands) :
    cmd ∉ greetingCommands := by
  simp only [thanksCommands, List.mem_cons, List.mem_singleton,
    List.not_mem_nil, or_false] at h
  rcases h with rfl | rfl | rfl <;> decide

theorem storeCommand_not_transition {cmd : List Char}
    (h : cmd ∈ greetingCommands ∨ cmd ∈ thanksCommands) :
    cmd ∉ closeCommands ∧ cmd ∉ botCommands := by
  rcases h with h | h <;> simp [greetingCommands, thanksCommands] at h <;>
    rcases h with rfl | rfl | rfl <;> exact ⟨by decide, by decide⟩

/-- A live session whose id is a 20-character token, as the bridge
templates embed. -/
def bridgeSampleSession : Session :=
  { id := ("abcd1234efgh5678ijkl").toList, visitorId := ("v1").toList,
    visitorName := ("Budi").toList, status := SessionStatus.live,
    claimedBy := ("admin_1").toList, claimedByName := ("Agent").toList,
    lastActivityAt := 0 }

/-- A non-self inbound reply quoting a notification that carries the
session token of bridgeSampleSession. -/
def bridgeSampleEvt : NewMessageEvent :=
  { client := ("bot").toList, fromJid := ("628111@s.whatsapp.net").toList,
    body := ("/hi").toList,
    quotedMsgBody := ("Permintaan\nID: #abcd1234efgh5678ijkl").toList,
    timestamp := 5, fromMe := false, chatId := ("x").toList }

/-- Claim C1 — the claim as frozen says every recognized command (including
/hi) stores no ChatMessage; in the code the greeting and thank-you commands
rewrite the outgoing content and then fall through to the path that stores
it, so the recognized command /hi addressed to an existing session does
store a message. -/
theorem C1_counterexample :
    toLowerList (goTrimSpace bridgeSampleEvt.body) ∈ greetingCommands ∧
    getSession [bridgeSampleSession] (extractSessionID bridgeSampleEvt.quotedMsgBody) =
      some bridgeSampleSession ∧
    (handleAgentReply [bridgeSampleSession] bridgeSampleEvt).saved ≠ [] := by
  decide

/-- Claim C1 (amended): for an inbound bridged reply addressed to an
existing session, the close and return-to-bot commands (/end, /close,
/selesai, /ai, /bot, /kembali) store no ChatMessage; the greeting and
thank-you commands (/hi, /halo, /sambutan, /thanks, /trims, /tq) store
exactly one admin ChatMessage whose content was rewritten to the canned
text; every unrecognized body stores exactly one admin ChatMessage holding
the original body. -/
theorem C1_bridge_commands_amended (store : List Session)
    (evt : NewMessageEvent) (session : Session)
    (h1 : evt.fromMe = false) (h2 : evt.quotedMsgBody ≠ [])
    (h3 : extractSessionID evt.quotedMsgBody ≠ [])
    (h4 : getSession store (extractSessionID evt.quotedMsgBody) = some session) :
    ((toLowerList (goTrimSpace evt.body) ∈ closeCommands ∨
      toLowerList (goTrimSpace evt.body) ∈ botCommands) →
      (handleAgentReply store evt).saved = []) ∧
    ((toLowerList (goTrimSpace evt.body) ∈ greetingCommands ∨
      toLowerList (goTrimSpace evt.body) ∈ thanksCommands) →
      ∃ m, (handleAgentReply store evt).saved = [m] ∧
        m.sender = ("admin").toList ∧
        m.sessionID = extractSessionID evt.quotedMsgBody ∧
        (m.content = cannedGreeting
            (if session.visitorName = [] then ("Kak").toList
             else session.visitorName) ∨
         m.content = cannedThanks)) ∧
    (toLowerList (goTrimSpace evt.body) ∉ closeCommands →
     toLowerList (goTrimSpace evt.body) ∉ botCommands →
     toLowerList (goTrimSpace evt.body) ∉ greetingCommands →
     toLowerList (goTrimSpace evt.body) ∉ thanksCommands →
      (handleAgentReply store evt).saved =
        [{ sessionID := extractSessionID evt.quotedMsgBody,
           sender := ("admin").toList, content := evt.body,
           timestamp := evt.timestamp }]) := by
  have hred : handleAgentReply store evt =
      bridgeProcess store evt (extractSessionID evt.quotedMsgBody) session := by
    simp [handleAgentReply, h1, h2, h3, h4]
  rw [hred]
  refine ⟨?_, ?_, ?_⟩
  · intro hmem
    rcases hmem with hc | hb
    · simp [bridgeProcess, hc]
    · simp [bridgeProcess, bot_not_close hb, hb]
  · intro hmem
    obtain ⟨hnc, hnb⟩ := storeCommand_not_transition hmem
    rcases hmem with hg | ht
    · refine ⟨{ sessionID := extractSessionID evt.quotedMsgBody,
                sender := ("admin").toList,
                content := cannedGreeting
                  (if session.visitorName = [] then ("Kak").toList
                   else session.visitorName),
                timestamp := evt.timestamp }, ?_, rfl, rfl, Or.inl rfl⟩
      by_cases hq : session.status = SessionStatus.queued <;>
        simp [bridgeProcess, hnc, hnb, hg, hq]
    · have hng := thanks_not_greeting ht
      refine ⟨{ sessionID := extractSessionID evt.quotedMsgBody,
                sender := ("admin").toList, content := cannedThanks,
                timestamp := evt.timestamp }, ?_, rfl, rfl, Or.inr rfl⟩
      by_cases hq : session.status = SessionStatus.queued <;>
        simp [bridgeProcess, hnc, hnb, hng, ht, hq]
  · intro hc hb hg ht
    by_cases hq : session.status = SessionStatus.queued <;>
      simp [bridgeProcess, hc, hb, hg, ht, hq]

/-- Claim C1 witness: the amended theorem applied to the sample session and
a /end reply, whose command stores nothing. -/
theorem C1_bridge_commands_amended_witness :
    (handleAgentReply [bridgeSampleSession]
        { bridgeSampleEvt with body := ("/end").toList }).saved = [] :=
  (C1_bridge_commands_amended [bridgeSampleSession]
      { bridgeSampleEvt with body := ("/end").toList } bridgeSampleSession
      rfl (by decide) (by decide) (by decide)).1 (Or.inl (by decide))

/-- The claim/ownership invariant of one session record. -/
def pointwiseClaimInv (s : Session) : Prop :=
  s.claimedBy ≠ [] ↔ s.status = SessionStatus.live

instance (s : Session) : Decidable (pointwiseClaimInv s) := by
  unfold pointwiseClaimInv
  infer_instance

theorem claimInvariant_iff {st : List Session} :
    claimInvariant st = true ↔ ∀ s ∈ st, pointwiseClaimInv s := by
  unfold claimInvariant
  rw [List.all_eq_true]
  exact ⟨fun h s hs => of_decide_eq_true (h s hs),
         fun h s hs => decide_eq_true
           (show s.claimedBy ≠ [] ↔ s.status = SessionStatus.live from h s hs)⟩

theorem updateSession_inv {st : List Session} {sid : List Char}
    {f : Session → Session}
    (hf : ∀ s, pointwiseClaimInv s → pointwiseClaimInv (f s))
    (h : ∀ s ∈ st, pointwiseClaimInv s) :
    ∀ s ∈ updateSession st sid f, pointwiseClaimInv s := by
  intro s hs
  rcases List.mem_map.mp hs with ⟨s0, hs0, rfl⟩
  by_cases hid : s0.id = sid
  · simpa [hid] using hf s0 (h s0 hs0)
  · simpa [hid] using h s0 hs0

/-- Claim C4 (spec-modelled session manager): in every store reachable from
the empty store through createSession, requestHandover, claimSession (with
the non-empty admin id the callers guarantee), returnToBot, closeSession and
cleanupInactiveSessions, claimedBy is non-empty exactly on the sessions
whose status is live. -/
theorem C4_claim_invariant (st : List Session) (h : ReachableStore st) :
    claimInvariant st = true := by
  rw [claimInvariant_iff]
  induction h with
  | empty => intro s hs; simp at hs
  | create sid visitorId visitorName now _ ih =>
    intro s hs
    rcases List.mem_append.mp hs with hs | hs
    · exact ih s hs
    · rcases List.mem_singleton.mp hs with rfl
      simp [pointwiseClaimInv]
  | handover sid _ ih =>
    refine updateSession_inv (fun s hinv => ?_) ih
    by_cases hb : s.status = SessionStatus.bot
    · have hcb : s.claimedBy = [] := by
        by_contra hne
        rw [hinv.mp hne] at hb
        exact absurd hb (by simp)
      simp [pointwiseClaimInv, hb, hcb]
    · simpa [hb] using hinv
  | claim sid adminId adminName _ hA ih =>
    refine updateSession_inv (fun s hinv => ?_) ih
    by_cases hs : s.status = SessionStatus.queued ∨ s.status = SessionStatus.live
    · simp [pointwiseClaimInv, hs, hA]
    · simpa [hs] using hinv
  | toBot sid _ ih =>
    refine updateSession_inv (fun s hinv => ?_) ih
    by_cases hs : s.status ≠ SessionStatus.closed
    · simp [pointwiseClaimInv, hs]
    · simpa [hs] using hinv
  | close sid _ ih =>
    refine updateSession_inv (fun s _ => ?_) ih
    simp [pointwiseClaimInv]
  | cleanup now maxIdle _ ih =>
    intro s hs
    rcases List.mem_map.mp hs with ⟨s0, hs0, rfl⟩
    by_cases hidle : now - s0.lastActivityAt > maxIdle
    · simp [pointwiseClaimInv, hidle]
    · simpa [hidle] using ih s0 hs0

/-- Claim C4 witness: the invariant checked on the concrete reachable store
obtained by creating a session, requesting handover and claiming it. -/
theorem C4_claim_invariant_witness :
    claimInvariant
      (claimSession
        (requestHandover
          (createSession [] (("s1s1s1s1s1s1s1s1s1s1").toList) (("v1").toList)
            (("Budi").toList) 0)
          (("s1s1s1s1s1s1s1s1s1s1").toList))
        (("s1s1s1s1s1s1s1s1s1s1").toList) (("admin_1").toList)
        (("Agent").toList)) = true :=
  C4_claim_invariant _
    (ReachableStore.claim _ _ _
      (ReachableStore.handover _
        (ReachableStore.create _ _ _ _ ReachableStore.empty))
      (by decide))

theorem find?_filter_of_imp {α : Type} (l : List α) (p q : α → Bool)
    (h : ∀ x, p x = true → q x = true) :
    (l.filter q).find? p = l.find? p := by
  induction l with
  | nil => rfl
  | cons a l ih =>
    by_cases hq : q a = true
    · rw [List.filter_cons_of_pos hq]
      by_cases hp : p a = true
      · rw [List.find?_cons_of_pos _ hp, List.find?_cons_of_pos _ hp]
      · rw [List.find?_cons_of_neg _ (by simpa using hp),
            List.find?_cons_of_neg _ (by simpa using hp)]
        exact ih
    · have hp : p a = false := by
        cases hpa : p a
        · rfl
        · exact absurd (h a hpa) (by simpa using hq)
      rw [List.filter_cons_of_neg (by simpa using hq),
          List.find?_cons_of_neg _ (by simp [hp])]
      exact ih

theorem cacheLookup_cacheStore (cache : List (List Char × Nat))
    (k : List Char) (v : Nat) (s : List Char) :
    cacheLookup (cacheStore cache k v) s =
      if s = k then some v else cacheLookup cache s := by
  unfold cacheLookup cacheStore
  by_cases hs : s = k
  · subst hs
    rw [if_pos rfl, List.find?_cons_of_pos _ (by simp)]
    rfl
  · rw [if_neg hs, List.find?_cons_of_neg _ (by simp [Ne.symm hs])]
    rw [find?_filter_of_imp]
    intro x hx
    simp only [decide_eq_true_eq] at hx
    simp [hx, hs]

theorem length_filter_le_one_of_pairwise {α : Type} {R : α → α → Prop}
    {l : List α} {p : α → Bool} (hpw : List.Pairwise R l)
    (h : ∀ a b, p a = true → p b = true → R a b → False) :
    (l.filter p).length ≤ 1 := by
  induction l with
  | nil => simp
  | cons a l ih =>
    obtain ⟨ha, hl⟩ := List.pairwise_cons.mp hpw
    by_cases hp : p a = true
    · rw [List.filter_cons_of_pos hp]
      have hnil : l.filter p = [] := by
        rw [List.filter_eq_nil_iff]
        intro b hb hpb
        exact h a b hp hpb (ha b hb)
      simp [hnil]
    · rw [List.filter_cons_of_neg (by simpa using hp)]
      exact ih hl

theorem runAutoResponder_gap (isAdmin : List Char → Bool) (avail : Bool)
    (events : List (NewMessageEvent × Nat)) (cache : List (List Char × Nat))
    (hmono : List.Pairwise (fun a b => a.2 ≤ b.2) events)
    (hcache : ∀ s t, cacheLookup cache s = some t → ∀ p ∈ events, t ≤ p.2) :
    List.Pairwise (fun a b => a.1 = b.1 → a.2 + autoReplyCooldown ≤ b.2)
      (runAutoResponder isAdmin avail events cache).2 ∧
    (∀ q ∈ (runAutoResponder isAdmin avail events cache).2,
      ∀ t0, cacheLookup cache q.1 = some t0 → t0 + autoReplyCooldown ≤ q.2) := by
  induction events generalizing cache with
  | nil =>
    simp [runAutoResponder]
  | cons et rest ih =>
    obtain ⟨evt, t⟩ := et
    obtain ⟨hhead, hrest⟩ := List.pairwise_cons.mp hmono
    have hcr : ∀ s t0, cacheLookup cache s = some t0 → ∀ p ∈ rest, t0 ≤ p.2 :=
      fun s t0 h0 p hp => hcache s t0 h0 p (List.mem_cons_of_mem _ hp)
    by_cases helig : autoResponderEligible isAdmin evt = true
    · by_cases hcool : cooldownPassed cache evt.fromJid t = true
      · -- the cooldown passes: the cache is updated and a send may happen
        have hstep : handleBotAutoResponder isAdmin avail cache evt t =
            (cacheStore cache evt.fromJid t, avail) := by
          simp [handleBotAutoResponder, helig, hcool]
        have hc' : ∀ s t0,
            cacheLookup (cacheStore cache evt.fromJid t) s = some t0 →
            ∀ p ∈ rest, t0 ≤ p.2 := by
          intro s t0 h0 p hp
          rw [cacheLookup_cacheStore] at h0
          by_cases hs : s = evt.fromJid
          · rw [if_pos hs] at h0
            cases h0
            exact hhead p hp
          · rw [if_neg hs] at h0
            exact hcr s t0 h0 p hp
        obtain ⟨ihPW, ihB⟩ := ih (cacheStore cache evt.fromJid t) hrest hc'
        have hsendbound : ∀ q ∈ (runAutoResponder isAdmin avail rest
              (cacheStore cache evt.fromJid t)).2,
            q.1 = evt.fromJid → t + autoReplyCooldown ≤ q.2 := by
          intro q hq hq1
          refine ihB q hq t ?_
          rw [cacheLookup_cacheStore, if_pos hq1]
        have hheadok : ∀ t0, cacheLookup cache evt.fromJid = some t0 →
            t0 + autoReplyCooldown ≤ t := by
          intro t0 h0
          have hle : t0 ≤ t := hcache evt.fromJid t0 h0 (evt, t)
            (List.mem_cons_self _ _)
          unfold cooldownPassed at hcool
          rw [h0] at hcool
          simp only [Bool.not_eq_true', decide_eq_false_iff_not, not_lt] at hcool
          omega
        constructor
        · simp only [runAutoResponder, hstep]
          cases avail with
          | false => simpa using ihPW
          | true =>
            simp only [if_true, List.singleton_append]
            refine List.pairwise_cons.mpr ⟨?_, ihPW⟩
            intro q hq heq
            exact hsendbound q hq heq.symm
        · simp only [runAutoResponder, hstep]
          intro q hq t0 h0
          rcases List.mem_append.mp hq with hq | hq
          · have hqv : q = (evt.fromJid, t) := by
              cases avail with
              | false => simp at hq
              | true => simpa using hq
            subst hqv
            exact hheadok t0 h0
          · by_cases hs : q.1 = evt.fromJid
            · have hbound := hsendbound q hq hs
              have hle : t0 ≤ t := hcache q.1 t0 h0 (evt, t)
                (List.mem_cons_self _ _)
              omega
            · refine ihB q hq t0 ?_
              rw [cacheLookup_cacheStore, if_neg hs]
              exact h0
      · -- eligible but still cooling down: nothing sent, cache untouched
        have hstep : handleBotAutoResponder isAdmin avail cache evt t =
            (cache, false) := by
          simp [handleBotAutoResponder, helig, hcool]
        obtain ⟨ihPW, ihB⟩ := ih cache hrest hcr
        constructor
        · simpa [runAutoResponder, hstep] using ihPW
        · intro q hq t0 h0
          simp only [runAutoResponder, hstep, if_false, List.nil_append] at hq
          exact ihB q hq t0 h0
    · -- ineligible: nothing sent, cache untouched
      have hstep : handleBotAutoResponder isAdmin avail cache evt t =
          (cache, false) := by
        simp [handleBotAutoResponder, helig]
      obtain ⟨ihPW, ihB⟩ := ih cache hrest hcr
      constructor
      · simpa [runAutoResponder, hstep] using ihPW
      · intro q hq t0 h0
        simp only [runAutoResponder, hstep, if_false, List.nil_append] at hq
        exact ihB q hq t0 h0

/-- Claim C2 (amended): when the auto-responder processes a chronological
stream of inbound events sequentially (each invocation atomic), at most one
acknowledgment is sent to any sender within any half-open 30-minute window;
the counterexample shows the guarantee does not survive the source's
non-atomic Load/Store cooldown update under concurrent duplicates. -/
theorem C2_autoResponder_window_amended (isAdmin : List Char → Bool)
    (avail : Bool) (events : List (NewMessageEvent × Nat))
    (sender : List Char) (w : Nat)
    (hmono : List.Pairwise (fun a b => a.2 ≤ b.2) events) :
    ((runAutoResponder isAdmin avail events []).2.filter
      (fun q => decide (q.1 = sender) && decide (w ≤ q.2) &&
        decide (q.2 < w + autoReplyCooldown))).length ≤ 1 := by
  have hmain := runAutoResponder_gap isAdmin avail events [] hmono
    (by intro s t h; simp [cacheLookup] at h)
  refine length_filter_le_one_of_pairwise hmain.1 ?_
  intro a b hpa hpb hR
  simp only [Bool.and_eq_true, decide_eq_true_eq] at hpa hpb
  obtain ⟨⟨ha1, ha2⟩, ha3⟩ := hpa
  obtain ⟨⟨hb1, hb2⟩, hb3⟩ := hpb
  have hgap := hR (by rw [ha1, hb1])
  have hcd : autoReplyCooldown = 1800 := rfl
  omega

/-- A plain non-admin inbound message (no quote), for the auto-responder
theorems. -/
def plainEvt : NewMessageEvent :=
  { client := ("bot").toList, fromJid := ("628333444555@s.whatsapp.net").toList,
    body := ("halo").toList, quotedMsgBody := [], timestamp := 0,
    fromMe := false, chatId := ("z").toList }

/-- Claim C2 witness: the amended theorem applied to two concrete events of
the same sender arriving 10 seconds apart. -/
theorem C2_autoResponder_window_amended_witness :
    ((runAutoResponder (fun _ => false) true [(plainEvt, 10), (plainEvt, 20)] []).2.filter
      (fun q => decide (q.1 = plainEvt.fromJid) && decide (10 ≤ q.2) &&
        decide (q.2 < 10 + autoReplyCooldown))).length ≤ 1 :=
  C2_autoResponder_window_amended (fun _ => false) true
    [(plainEvt, 10), (plainEvt, 20)] plainEvt.fromJid 10 (by decide)

/-- Claim C2 — the claim as frozen promises at most one acknowledgment per
window even under concurrent duplicate events; the cooldown check and the
cooldown store are separate steps on the shared cache, so the interleaving
in which both invocations pass the check before either stores sends two
acknowledgments to the same sender at the same instant. -/
theorem C2_counterexample :
    ((racedAutoResponder (fun _ => false) plainEvt 1000).filter
      (fun q => decide (q.1 = plainEvt.fromJid) && decide (1000 ≤ q.2) &&
        decide (q.2 < 1000 + autoReplyCooldown))).length = 2 := by
  decide

end WaServer

